import Mathlib

/-!
Verification of the feedback-copilot worker (`src/feedback-copilot/src/index.ts`).

The development shallow-embeds the worker's logic in Lean:
machine floating-point arithmetic is modelled over `ℚ`, timestamps as integer
milliseconds, and JavaScript's `JSON.parse` by an executable parser over a
`Json` inductive type.
-/

namespace FeedbackCopilot

/-- JavaScript `Math.round`: rounds half toward positive infinity,
`Math.round x = ⌊x + 1/2⌋`. -/
def jsRound (x : ℚ) : ℤ := ⌊x + 1 / 2⌋

/-- Rounding to two decimal places exactly as the worker performs it:
`Math.round (base * 100) / 100`. -/
def round2 (x : ℚ) : ℚ := (jsRound (x * 100) : ℚ) / 100

/-- The age computation
`const ageHours = Math.max(1, Math.floor((now.getTime() - created.getTime()) / (1000*60*60)))`
with both times in integer milliseconds. -/
def ageHours (now created : ℤ) : ℤ := max 1 ⌊((now - created : ℤ) : ℚ) / 3600000⌋

/-- The pre-cap base of the gravity calculation:
`let base = Math.abs(analysis.sentiment) * 10 / ageHours;`
`if (analysis.sentiment < 0 && analysis.category === 'Bug') base *= 2;` -/
def gravityBase (sentiment : ℚ) (category : String) (age : ℤ) : ℚ :=
  let base := |sentiment| * 10 / (age : ℚ)
  if sentiment < 0 ∧ category = "Bug" then base * 2 else base

/-- The capped score `const gravityScore = Math.min(50, Math.round(base * 100) / 100);`. -/
def gravityScore (sentiment : ℚ) (category : String) (age : ℤ) : ℚ :=
  min 50 (round2 (gravityBase sentiment category age))

/-- The gravity formula exactly as the specification states it (§4.4):
`age_hours = max(1, floor((now - created_at) in hours))`,
`base = |sentiment| * 10 / age_hours`,
`if sentiment < 0 and category == "Bug": base *= 2`,
`gravity_score = min(50, round(base, 2 decimal places))`.
This definition follows the spec's words, to be compared with the
source-derived `gravityScore`. -/
def spec_gravityScore (sentiment : ℚ) (category : String) (age_hours : ℤ) : ℚ :=
  let base := |sentiment| * 10 / (age_hours : ℚ)
  let base := if sentiment < 0 ∧ category = "Bug" then base * 2 else base
  min 50 (round2 base)

/-- JSON values as produced by `JSON.parse`. -/
inductive Json where
  | null
  | bool (b : Bool)
  | num (q : ℚ)
  | str (s : String)
  | arr (elems : List Json)
  | obj (fields : List (String × Json))
deriving Repr, BEq

/-- Property read `j["k"]` on a parsed JSON value: `none` is JS `undefined`.
For objects with duplicate keys `JSON.parse` keeps the last occurrence. -/
def Json.getField : Json → String → Option Json
  | .obj fs, k => fs.reverse.lookup k
  | _, _ => none

/-- JS truthiness of a parsed JSON value. -/
def Json.truthy : Json → Bool
  | .null => false
  | .bool b => b
  | .num q => decide (q ≠ 0)
  | .str s => decide (s ≠ "")
  | .arr _ => true
  | .obj _ => true

def isWs (c : Char) : Bool := c = ' ' || c = '\n' || c = '\t' || c = '\r'

def skipWs (cs : List Char) : List Char := cs.dropWhile isWs

/-- Parse the remainder of a JSON string literal (after the opening quote):
returns the decoded characters and the input after the closing quote. -/
def pStrAux : List Char → Option (List Char × List Char)
  | [] => none
  | '"' :: rest => some ([], rest)
  | '\\' :: c :: rest =>
    let esc : Option Char :=
      if c = '"' then some '"'
      else if c = '\\' then some '\\'
      else if c = '/' then some '/'
      else if c = 'b' then some (Char.ofNat 8)
      else if c = 'f' then some (Char.ofNat 12)
      else if c = 'n' then some '\n'
      else if c = 'r' then some '\r'
      else if c = 't' then some '\t'
      else none
    match esc with
    | some e => (pStrAux rest).map fun p => (e :: p.1, p.2)
    | none => none
  | c :: rest => (pStrAux rest).map fun p => (c :: p.1, p.2)

def digitVal (c : Char) : ℕ := c.toNat - '0'.toNat

def natOfDigits (ds : List Char) : ℕ := ds.foldl (fun n c => n * 10 + digitVal c) 0

def pDigits (cs : List Char) : List Char × List Char :=
  (cs.takeWhile Char.isDigit, cs.dropWhile Char.isDigit)

/-- Fractional part `.digits`: returns the fraction digits (empty when no
fraction; a dot without digits is a parse error). -/
def pFrac : List Char → Option (List Char × List Char)
  | '.' :: r =>
    let p := pDigits r
    if p.1.isEmpty then none else some (p.1, p.2)
  | cs => some ([], cs)

/-- Exponent part `e±digits`, returned as sign flag and magnitude. -/
def pExp : List Char → Option ((Bool × ℕ) × List Char)
  | c :: r =>
    if c = 'e' ∨ c = 'E' then
      let sp : Bool × List Char :=
        match r with
        | '+' :: rr => (false, rr)
        | '-' :: rr => (true, rr)
        | _ => (false, r)
      let p := pDigits sp.2
      if p.1.isEmpty then none
      else some ((sp.1, natOfDigits p.1), p.2)
    else some ((false, 0), c :: r)
  | [] => some ((false, 0), [])

/-- JSON number: optional `-`, integer part without leading zeros, optional
fraction and exponent.  The value `± mantissa · 10^(±exp) / 10^(#frac digits)`
is assembled with `mkRat`. -/
def pNum (cs : List Char) : Option (ℚ × List Char) :=
  let sp : Bool × List Char :=
    match cs with
    | '-' :: r => (true, r)
    | _ => (false, cs)
  let ip := pDigits sp.2
  if ip.1.isEmpty then none
  else if 1 < ip.1.length ∧ ip.1.headD '0' = '0' then none
  else
    match pFrac ip.2 with
    | none => none
    | some (fd, r2) =>
      match pExp r2 with
      | none => none
      | some ((eneg, emag), r3) =>
        let mant : ℕ := natOfDigits (ip.1 ++ fd)
        let sgn : ℤ := if sp.1 then -1 else 1
        let q : ℚ :=
          if eneg then mkRat (sgn * mant) (10 ^ fd.length * 10 ^ emag)
          else mkRat (sgn * (mant * 10 ^ emag)) (10 ^ fd.length)
        some (q, r3)

mutual

/-- Parse one JSON value (fuel-indexed model of `JSON.parse`'s grammar). -/
def pVal : (fuel : ℕ) → List Char → Option (Json × List Char)
  | 0, _ => none
  | fuel+1, cs =>
    match skipWs cs with
    | 'n' :: 'u' :: 'l' :: 'l' :: rest => some (.null, rest)
    | 't' :: 'r' :: 'u' :: 'e' :: rest => some (.bool true, rest)
    | 'f' :: 'a' :: 'l' :: 's' :: 'e' :: rest => some (.bool false, rest)
    | '"' :: rest => (pStrAux rest).map fun p => (.str ⟨p.1⟩, p.2)
    | '[' :: rest =>
      (match skipWs rest with
       | ']' :: r2 => some (.arr [], r2)
       | r2 => (pElems fuel r2).map fun p => (.arr p.1, p.2))
    | '\x7b' :: rest =>
      (match skipWs rest with
       | '\x7d' :: r2 => some (.obj [], r2)
       | r2 => (pMembers fuel r2).map fun p => (.obj p.1, p.2))
    | c :: rest =>
      if c = '-' ∨ c.isDigit then
        (pNum (c :: rest)).map fun p => (.num p.1, p.2)
      else none
    | [] => none
  termination_by structural fuel => fuel

/-- Parse the elements of a non-empty JSON array. -/
def pElems : (fuel : ℕ) → List Char → Option (List Json × List Char)
  | 0, _ => none
  | fuel+1, cs =>
    match pVal fuel cs with
    | none => none
    | some (v, r) =>
      match skipWs r with
      | ',' :: r2 => (pElems fuel r2).map fun p => (v :: p.1, p.2)
      | ']' :: r2 => some ([v], r2)
      | _ => none
  termination_by structural fuel => fuel

/-- Parse the members of a non-empty JSON object. -/
def pMembers : (fuel : ℕ) → List Char → Option (List (String × Json) × List Char)
  | 0, _ => none
  | fuel+1, cs =>
    match skipWs cs with
    | '"' :: r =>
      (match pStrAux r with
       | none => none
       | some (k, r1) =>
         match skipWs r1 with
         | ':' :: r2 =>
           (match pVal fuel (skipWs r2) with
            | none => none
            | some (v, r3) =>
              match skipWs r3 with
              | ',' :: r4 => (pMembers fuel r4).map fun p => ((⟨k⟩, v) :: p.1, p.2)
              | '\x7d' :: r4 => some ([(⟨k⟩, v)], r4)
              | _ => none)
         | _ => none)
    | _ => none
  termination_by structural fuel => fuel

end

/-- Model of JavaScript's `JSON.parse`: `none` when `JSON.parse` throws. -/
def parseJson (s : String) : Option Json :=
  match pVal (2 * s.length + 2) (skipWs s.data) with
  | some (v, rest) => if (skipWs rest).isEmpty then some v else none
  | none => none

/-- Model of the worker's greedy-regex extraction `jsonStr.match(...)` whose
pattern is an opening brace, any characters, then a closing brace: it matches
the substring from the first opening brace to the last closing brace, when
the latter lies beyond the former; otherwise there is no match. -/
def extractBraces (s : String) : Option String :=
  let rest := s.data.dropWhile (fun c => c ≠ '\x7b')
  if rest.isEmpty then none
  else
    let tail := (rest.reverse.dropWhile (fun c => c ≠ '\x7d')).reverse
    if tail.isEmpty then none else some ⟨tail⟩

/-- The assignment `if (match) jsonStr = match[0];` — on no match the raw
response string is kept and handed to `JSON.parse` unchanged. -/
def extractOr (s : String) : String := (extractBraces s).getD s

/-- The fixed fallback of the `ai-enrichment` step:
`{ sentiment: 0, category: 'Other', explanation: 'Failed to analyze' }`. -/
def fallbackAnalysis : Json :=
  .obj [("sentiment", .num 0), ("category", .str "Other"),
        ("explanation", .str "Failed to analyze")]

/-- The `ai-enrichment` try/catch (lines 67–75): extract, parse, and fall
back to `fallbackAnalysis` only when parsing throws. -/
def enrichAnalysis (response : String) : Json :=
  match parseJson (extractOr response) with
  | some j => j
  | none => fallbackAnalysis

/-- The router's strict default:
`{ intent: 'help', params: { hours: 0, days: 0, term: '', id: '' } }`. -/
def helpDefault : Json :=
  .obj [("intent", .str "help"),
        ("params", .obj [("hours", .num 0), ("days", .num 0),
                         ("term", .str ""), ("id", .str "")])]

/-- The value of `intentData` after the router try/catch (lines 220–229): the parsed
JSON replaces the default wholesale; only a parse exception keeps the
default. -/
def intentDataOf (response : String) : Json :=
  match parseJson (extractOr response) with
  | some j => j
  | none => helpDefault

/-- Which of the five D1 query branches (lines 235–254) runs. -/
inductive QueryKind where
  | topIssues
  | bugsRecent
  | search
  | summary
  | issueDrilldown
  | noQuery
deriving DecidableEq, Repr

/-- The if/else-if chain on `intent` in step 2 of POST /chat. -/
def dispatch (intentData : Json) : QueryKind :=
  match intentData.getField "intent" with
  | some (.str "top_issues") => .topIssues
  | some (.str "bugs_recent") => .bugsRecent
  | some (.str "search") => .search
  | some (.str "summary") => .summary
  | some (.str "issue_drilldown") => .issueDrilldown
  | _ => .noQuery

/-- A string with no opening and no closing braces. -/
def braceFree (s : String) : Prop := ∀ c ∈ s.data, c ≠ '\x7b' ∧ c ≠ '\x7d'

/-- A row of the `feedback` table; `created_at` in integer milliseconds
(the ISO-8601 strings the worker stores compare lexicographically exactly as
their timestamps compare numerically). -/
structure FeedbackRow where
  id : String
  content : String
  source : String
  sentiment : ℚ
  gravity_score : ℚ
  category : String
  explanation : String
  created_at : ℤ
deriving Repr

/-- The row INSERTed by step `calculate-and-store` for an analysis record
with the given sentiment/category/explanation. -/
def mkFeedbackRow (id content source : String) (sentiment : ℚ)
    (category explanation : String) (now created : ℤ) : FeedbackRow :=
  { id := id, content := content, source := source, sentiment := sentiment,
    gravity_score := gravityScore sentiment category (ageHours now created),
    category := category, explanation := explanation, created_at := created }

/-- One pass of the retry loop, at attempt index `i` with `k` retries left:
on failure it sleeps `1000·(i+1)` ms and retries, except at `k = 0` where the
failure is rethrown.  Returns the final result, the number of attempts made,
and the list of back-off delays slept (in ms). -/
def retryAux {E A : Type} (call : ℕ → Except E A) : ℕ → ℕ → Except E A × ℕ × List ℕ
  | i, 0 => (call i, 1, [])
  | i, k+1 =>
    match call i with
    | .ok a => (.ok a, 1, [])
    | .error _ =>
      let r := retryAux call (i+1) k
      (r.1, r.2.1 + 1, 1000 * (i + 1) :: r.2.2)

/-- The helper `runAIWithRetry(env, model, inputs, retries = 2)`: the external call is
abstracted as the outcome `call i` of the `i`-th attempt. -/
def runAIWithRetry {E A : Type} (call : ℕ → Except E A) (retries : ℕ := 2) :
    Except E A × ℕ × List ℕ :=
  retryAux call 0 retries

/-- The ordering `ORDER BY gravity_score DESC, created_at DESC` as a total preorder:
`a` may come before `b`. -/
def bugsRecentCmp (a b : FeedbackRow) : Bool :=
  decide (b.gravity_score < a.gravity_score ∨
    (a.gravity_score = b.gravity_score ∧ b.created_at ≤ a.created_at))

/-- The default `const hours = params.hours || 24;` — `0` is falsy in JS. -/
def effHours (hours : ℚ) : ℚ := if hours = 0 then 24 else hours

/-- The `bugs_recent` query (line 238–242):
`WHERE category='Bug' AND created_at >= ? ORDER BY gravity_score DESC,
created_at DESC LIMIT 10` with the bound cutoff
`new Date(Date.now() - hours*60*60*1000)`. -/
def bugsRecentQuery (db : List FeedbackRow) (now : ℤ) (hours : ℚ) :
    List FeedbackRow :=
  let cutoff : ℚ := (now : ℚ) - effHours hours * 3600000
  (((db.filter fun r =>
      decide (r.category = "Bug") && decide (cutoff ≤ (r.created_at : ℚ))).mergeSort
        bugsRecentCmp).take 10)

/-- A sample persisted row used for concrete witnesses. -/
def sampleRow : FeedbackRow :=
  { id := "id-1", content := "login completely broken fix it!!!",
    source := "api", sentiment := -1, gravity_score := 20,
    category := "Bug", explanation := "broken login", created_at := 0 }

/-- The fixed list of canned samples. -/
def MESSY_SAMPLES : List String :=
  ["login completely broken fix it!!!",
   "I love the new dashboard, very clean",
   "where is the export button? cant find it",
   "app crashes when I upload large images",
   "pricing page is confusing as hell",
   "please add dark mode support",
   "api returns 500 error on tuesdays",
   "documentation link is broken",
   "best tool I\x27ve used all year",
   "loading takes forever on my phone",
   "can I invite more than 5 users?",
   "delete my account immediately"]

/-- JS property access `b.k` on a parsed body: throws (`.error`) on a `null`
receiver, yields `undefined` (`none`) for absent keys and primitive
receivers. -/
def propAccess : Json → String → Except Unit (Option Json)
  | .null, _ => .error ()
  | .obj fs, k => .ok (fs.reverse.lookup k)
  | _, _ => .ok none

/-- The handler's `if (body.text)` check: the text value when it is truthy,
`none` otherwise (including when the property access throws, which the
surrounding try/catch swallows). -/
def textOf (b : Json) : Option Json :=
  match propAccess b "text" with
  | .ok (some t) => if t.truthy then some t else none
  | _ => none

/-- The source default `source = body.source || \x27api\x27;`. -/
def sourceOf (b : Json) : Json :=
  match propAccess b "source" with
  | .ok (some sv) => if sv.truthy then sv else .str "api"
  | _ => .str "api"

/-- What POST /ingest produces: the workflow payload fields and the HTTP
response body. -/
structure IngestOutcome where
  content : Json
  source : Json
  response : Json
deriving Repr

/-- The immediate acknowledgment `{ ok: true, started: true }`. -/
def ingestAck : Json := .obj [("ok", .bool true), ("started", .bool true)]

/-- The POST /ingest handler (lines 143–174): `body` is the parse result of
the request body (`none` when `request.json()` throws), `pick` the index
drawn by `Math.floor(Math.random() * MESSY_SAMPLES.length)`. -/
def handleIngest (body : Option Json) (pick : ℕ) : IngestOutcome :=
  match body with
  | some b =>
    match textOf b with
    | some tv => { content := tv, source := sourceOf b, response := ingestAck }
    | none => { content := .str (MESSY_SAMPLES.getD pick ""),
                source := .str "random-generator", response := ingestAck }
  | none => { content := .str (MESSY_SAMPLES.getD pick ""),
              source := .str "random-generator", response := ingestAck }

/-- The pre-cap base is the undoubled base scaled by 2 exactly on the
doubling condition. -/
lemma gravityBase_eq (s : ℚ) (c : String) (a : ℤ) :
    gravityBase s c a = (if s < 0 ∧ c = "Bug" then 2 else 1) * (|s| * 10 / (a : ℚ)) := by
  unfold gravityBase
  split <;> ring

lemma round2_nonneg {x : ℚ} (hx : 0 ≤ x) : 0 ≤ round2 x := by
  unfold round2 jsRound
  have h : (0 : ℤ) ≤ ⌊x * 100 + 1 / 2⌋ := by
    apply Int.le_floor.mpr
    push_cast
    linarith
  exact div_nonneg (by exact_mod_cast h) (by norm_num)

/-- If `x ≤ n` for an integer bound `n`, then rounding to two decimals keeps
the bound. -/
lemma round2_le_int {x : ℚ} {n : ℤ} (hx : x ≤ n) : round2 x ≤ n := by
  unfold round2 jsRound
  have h : ⌊x * 100 + 1 / 2⌋ ≤ n * 100 := by
    have habove : x * 100 + 1 / 2 ≤ (n : ℚ) * 100 + 1 / 2 := by push_cast; linarith
    calc ⌊x * 100 + 1 / 2⌋ ≤ ⌊(n : ℚ) * 100 + 1 / 2⌋ := Int.floor_le_floor habove
      _ ≤ n * 100 := by
          rw [show ((n : ℚ) * 100 + 1 / 2) = (↑(n * 100) + 1 / 2 : ℚ) by push_cast; ring]
          rw [Int.floor_int_add]
          norm_num
  rw [div_le_iff₀ (by norm_num)]
  exact_mod_cast h

lemma round2_mono {x y : ℚ} (h : x ≤ y) : round2 x ≤ round2 y := by
  unfold round2 jsRound
  have : ⌊x * 100 + 1 / 2⌋ ≤ ⌊y * 100 + 1 / 2⌋ := by
    apply Int.floor_le_floor
    linarith
  have h' : ((⌊x * 100 + 1 / 2⌋ : ℤ) : ℚ) ≤ ((⌊y * 100 + 1 / 2⌋ : ℤ) : ℚ) := by
    exact_mod_cast this
  exact (div_le_div_right (by norm_num : (0:ℚ) < 100)).mpr h'

lemma gravityBase_nonneg (s : ℚ) (c : String) {a : ℤ} (ha : 1 ≤ a) :
    0 ≤ gravityBase s c a := by
  rw [gravityBase_eq]
  have h0 : (0 : ℚ) < (a : ℚ) := by exact_mod_cast ha.trans_lt' (by norm_num)
  have hb : 0 ≤ |s| * 10 / (a : ℚ) := by positivity
  split <;> linarith

lemma gravityBase_le {s : ℚ} (c : String) {a : ℤ} (hs : |s| ≤ 1) (ha : 1 ≤ a) :
    gravityBase s c a ≤ 20 := by
  rw [gravityBase_eq]
  have h0 : (0 : ℚ) < (a : ℚ) := by exact_mod_cast ha.trans_lt' (by norm_num)
  have h1 : (1 : ℚ) ≤ (a : ℚ) := by exact_mod_cast ha
  have hb : |s| * 10 / (a : ℚ) ≤ 10 := by
    rw [div_le_iff h0]
    nlinarith [abs_nonneg s]
  have hb0 : 0 ≤ |s| * 10 / (a : ℚ) := by positivity
  split <;> linarith

/-- C1: the scorer computes `age_hours = max(1, floor(elapsed hours))`,
`base = |sentiment|·10/age_hours` doubled exactly when `sentiment < 0` and
`category = "Bug"`, and returns `min(50, base rounded to 2 decimals)` — it
coincides with the spec's formula — and the two worked examples hold:
`(age 1, sentiment −1, Bug) ↦ 20` and `(age 100, sentiment 0.5, UX) ↦ 0.05`. -/
theorem C1_gravity_formula :
    (∀ now created : ℤ, ageHours now created = max 1 ⌊((now - created : ℤ) : ℚ) / 3600000⌋) ∧
    (∀ (s : ℚ) (c : String) (a : ℤ),
      gravityBase s c a = (if s < 0 ∧ c = "Bug" then 2 else 1) * (|s| * 10 / (a : ℚ))) ∧
    (∀ (s : ℚ) (c : String) (a : ℤ), gravityScore s c a = spec_gravityScore s c a) ∧
    gravityScore (-1) "Bug" 1 = 20 ∧ gravityScore (1/2) "UX" 100 = 1/20 := by
  refine ⟨fun _ _ => rfl, gravityBase_eq, fun _ _ _ => rfl, ?_, ?_⟩
  · have h1 : gravityBase (-1) "Bug" 1 = 20 := by
      unfold gravityBase
      norm_num
    have h2 : round2 20 = 20 := by
      unfold round2 jsRound
      norm_num
    unfold gravityScore
    rw [h1, h2]
    norm_num
  · have h1 : gravityBase (1/2) "UX" 100 = 1/20 := by
      unfold gravityBase
      rw [abs_of_pos (by norm_num)]
      norm_num
    have h2 : round2 (1/20) = 1/20 := by
      unfold round2 jsRound
      norm_num
    unfold gravityScore
    rw [h1, h2]
    norm_num

/-- C4: for every sentiment in `[-1, 1]`, category and `age_hours ≥ 1`, the
gravity score lies in `[0, 50]` and is an exact multiple of `1/100`
(rounded to two decimal places). -/
theorem C4_score_bounded (s : ℚ) (c : String) (a : ℤ)
    (hl : -1 ≤ s) (hr : s ≤ 1) (ha : 1 ≤ a) :
    0 ≤ gravityScore s c a ∧ gravityScore s c a ≤ 50 ∧
      ∃ n : ℤ, gravityScore s c a * 100 = n := by
  have habs : |s| ≤ 1 := abs_le.mpr ⟨hl, hr⟩
  have h0 := gravityBase_nonneg s c ha
  have h20 := gravityBase_le c habs ha
  have hr0 : 0 ≤ round2 (gravityBase s c a) := round2_nonneg h0
  have hr20 : round2 (gravityBase s c a) ≤ (20 : ℤ) := round2_le_int h20
  refine ⟨le_min (by norm_num) hr0, ?_, ?_⟩
  · unfold gravityScore
    exact min_le_of_left_le le_rfl
  · refine ⟨jsRound (gravityBase s c a * 100), ?_⟩
    unfold gravityScore
    rw [min_eq_right (by push_cast at hr20 ⊢; linarith)]
    unfold round2
    field_simp

/-- C5: for fixed sentiment and category the score is non-increasing in
`age_hours`; and for `sentiment < 0` the pre-cap base with category `"Bug"`
is exactly twice the base of the otherwise-identical item whose category is
not `"Bug"`, or whose sentiment has the same magnitude but is not negative. -/
theorem C5_monotone_and_doubling :
    (∀ (s : ℚ) (c : String) (a a' : ℤ), 1 ≤ a → a ≤ a' →
      gravityScore s c a' ≤ gravityScore s c a) ∧
    (∀ (s : ℚ) (c : String) (a : ℤ), s < 0 → c ≠ "Bug" →
      gravityBase s "Bug" a = 2 * gravityBase s c a) ∧
    (∀ (s : ℚ) (a : ℤ), s < 0 →
      gravityBase s "Bug" a = 2 * gravityBase (-s) "Bug" a) := by
  refine ⟨?_, ?_, ?_⟩
  · intro s c a a' ha haa
    have h1 : (0:ℚ) < (a : ℚ) := by exact_mod_cast lt_of_lt_of_le one_pos ha
    have h2 : ((a : ℚ)) ≤ (a' : ℚ) := by exact_mod_cast haa
    have h3 : (0:ℚ) < (a' : ℚ) := lt_of_lt_of_le h1 h2
    have hbase : gravityBase s c a' ≤ gravityBase s c a := by
      rw [gravityBase_eq, gravityBase_eq]
      have hdiv : |s| * 10 / (a' : ℚ) ≤ |s| * 10 / (a : ℚ) := by
        gcongr
      split <;> linarith
    exact min_le_min le_rfl (round2_mono hbase)
  · intro s c a hs hc
    rw [gravityBase_eq, gravityBase_eq]
    rw [if_pos ⟨hs, rfl⟩, if_neg (by tauto)]
    ring
  · intro s a hs
    rw [gravityBase_eq, gravityBase_eq]
    rw [if_pos ⟨hs, rfl⟩, if_neg (by push_neg; intro h; linarith), abs_neg]
    ring

/-- Witness for C5 at `s = -1`, `c = "UX"`, ages `1 ≤ 2`. -/
theorem C5_monotone_and_doubling_witness :
    gravityScore (-1) "UX" 2 ≤ gravityScore (-1) "UX" 1 ∧
    gravityBase (-1) "Bug" 3 = 2 * gravityBase (-1) "UX" 3 ∧
    gravityBase (-1) "Bug" 3 = 2 * gravityBase (-(-1)) "Bug" 3 :=
  ⟨C5_monotone_and_doubling.1 (-1) "UX" 1 2 (by norm_num) (by norm_num),
   C5_monotone_and_doubling.2.1 (-1) "UX" 3 (by norm_num) (by decide),
   C5_monotone_and_doubling.2.2 (-1) 3 (by norm_num)⟩

/-- Witness for C4 at `s = -1`, `c = "Bug"`, `a = 1`. -/
theorem C4_score_bounded_witness :
    0 ≤ gravityScore (-1) "Bug" 1 ∧ gravityScore (-1) "Bug" 1 ≤ 50 ∧
      ∃ n : ℤ, gravityScore (-1) "Bug" 1 * 100 = n :=
  C4_score_bounded (-1) "Bug" 1 (by norm_num) (by norm_num) (by norm_num)

/-- C10: for sentiment in `[-1, 1]`, any category and any timestamps (future
ones floor the age up to 1), the pre-cap base is at most 20, the `min 50` cap
never changes the result, and the stored score never exceeds 20. -/
theorem C10_cap_unreachable (s : ℚ) (c : String) (now created : ℤ)
    (hl : -1 ≤ s) (hr : s ≤ 1) :
    1 ≤ ageHours now created ∧
    gravityBase s c (ageHours now created) ≤ 20 ∧
    min 50 (round2 (gravityBase s c (ageHours now created)))
      = round2 (gravityBase s c (ageHours now created)) ∧
    gravityScore s c (ageHours now created) ≤ 20 := by
  have hage : 1 ≤ ageHours now created := le_max_left _ _
  have habs : |s| ≤ 1 := abs_le.mpr ⟨hl, hr⟩
  have h20 := gravityBase_le c habs hage
  have hr20 : round2 (gravityBase s c (ageHours now created)) ≤ (20 : ℤ) :=
    round2_le_int h20
  have hmin : min 50 (round2 (gravityBase s c (ageHours now created)))
      = round2 (gravityBase s c (ageHours now created)) :=
    min_eq_right (by push_cast at hr20 ⊢; linarith)
  refine ⟨hage, h20, hmin, ?_⟩
  unfold gravityScore
  rw [hmin]
  push_cast at hr20
  linarith

/-- Witness for C10 at `s = -1`, `c = "Bug"`, `now = created = 0`. -/
theorem C10_cap_unreachable_witness :
    1 ≤ ageHours 0 0 ∧
    gravityBase (-1) "Bug" (ageHours 0 0) ≤ 20 ∧
    min 50 (round2 (gravityBase (-1) "Bug" (ageHours 0 0)))
      = round2 (gravityBase (-1) "Bug" (ageHours 0 0)) ∧
    gravityScore (-1) "Bug" (ageHours 0 0) ≤ 20 :=
  C10_cap_unreachable (-1) "Bug" 0 0 (by norm_num) (by norm_num)

lemma dropWhile_append_all {α} (p : α → Bool) (l1 l2 : List α)
    (h : ∀ c ∈ l1, p c = true) :
    (l1 ++ l2).dropWhile p = l2.dropWhile p := by
  induction l1 with
  | nil => rfl
  | cons a t ih =>
    rw [List.cons_append, List.dropWhile_cons, if_pos (h a (List.mem_cons_self a t))]
    exact ih fun c hc => h c (List.mem_cons_of_mem a hc)

lemma dropWhile_eq_nil_all {α} (p : α → Bool) (l : List α)
    (h : ∀ c ∈ l, p c = true) : l.dropWhile p = [] := by
  have := dropWhile_append_all p l [] h
  simpa using this

/-- On a fenced response — brace-free prefix and suffix around a braced
payload — the extraction recovers exactly the payload. -/
lemma extractBraces_concat (pre obj post : String)
    (hpre : braceFree pre) (hpost : braceFree post)
    (hh : obj.data.head? = some '\x7b') (hl : obj.data.getLast? = some '\x7d') :
    extractBraces (pre ++ obj ++ post) = some obj := by
  obtain ⟨t, ht⟩ := List.head?_eq_some_iff.mp hh
  have hrev0 : obj.data.reverse.head? = some '\x7d' := by
    rw [List.head?_reverse]
    exact hl
  obtain ⟨t', ht'⟩ := List.head?_eq_some_iff.mp hrev0
  have h1 : ((pre ++ obj ++ post).data).dropWhile (fun c => c ≠ '\x7b')
      = obj.data ++ post.data := by
    rw [String.data_append, String.data_append, List.append_assoc]
    rw [dropWhile_append_all _ _ _ (fun c hc => by simp [(hpre c hc).1])]
    rw [ht, List.cons_append, List.dropWhile_cons, if_neg (by simp)]
  have h2 : ((obj.data ++ post.data).reverse).dropWhile (fun c => c ≠ '\x7d')
      = obj.data.reverse := by
    rw [List.reverse_append]
    rw [dropWhile_append_all _ _ _
      (fun c hc => by simp [(hpost c (List.mem_reverse.mp hc)).2])]
    rw [ht', List.dropWhile_cons, if_neg (by simp)]
  unfold extractBraces
  rw [h1]
  rw [if_neg (by rw [ht]; simp)]
  rw [h2]
  rw [List.reverse_reverse]
  rw [if_neg (by rw [ht]; simp)]

/-- On a brace-free string the extraction finds nothing. -/
lemma extractBraces_none (s : String) (hs : braceFree s) :
    extractBraces s = none := by
  unfold extractBraces
  rw [dropWhile_eq_nil_all _ _ (fun c hc => by simp [(hs c hc).1])]
  rfl

/-- C3 counterexample: for the brace-free model response "42", the regex
extraction finds no object, yet `JSON.parse` accepts the raw string, so the
enrichment step returns a parsed value (the number 42) and NOT the documented
fallback record. -/
theorem C3_counterexample :
    extractBraces "42" = none ∧
    parseJson "42" = some (Json.num 42) ∧
    enrichAnalysis "42" = Json.num 42 ∧
    enrichAnalysis "42" ≠ fallbackAnalysis := by
  refine ⟨rfl, rfl, rfl, ?_⟩
  intro h
  have h' : Json.num 42 = fallbackAnalysis := h
  simp [fallbackAnalysis] at h'

/-- C3 amended: (a) for a single braced JSON payload wrapped in brace-free
Markdown fences, extraction returns exactly the payload, so the parse result
equals parsing the inner object directly; (b) for a brace-free string the
extraction fails, and the fallback is produced exactly when the raw string
itself also fails to parse as JSON. -/
theorem C3_extraction :
    (∀ pre obj post : String, braceFree pre → braceFree post →
      obj.data.head? = some '\x7b' → obj.data.getLast? = some '\x7d' →
      extractBraces (pre ++ obj ++ post) = some obj ∧
      parseJson (extractOr (pre ++ obj ++ post)) = parseJson obj) ∧
    (∀ s : String, braceFree s →
      extractBraces s = none ∧
      (parseJson s = none → enrichAnalysis s = fallbackAnalysis)) := by
  constructor
  · intro pre obj post hpre hpost hh hl
    have he := extractBraces_concat pre obj post hpre hpost hh hl
    refine ⟨he, ?_⟩
    unfold extractOr
    rw [he]
    rfl
  · intro s hs
    have he0 : extractOr s = s := by
      unfold extractOr
      rw [extractBraces_none s hs]
      rfl
    refine ⟨extractBraces_none s hs, fun hp => ?_⟩
    unfold enrichAnalysis
    rw [he0, hp]

/-- Witness for C3 amended, on a fenced payload and on plain prose. -/
theorem C3_extraction_witness :
    (extractBraces ("```json\n" ++ "\x7b\"a\": 1\x7d" ++ "\n```")
        = some "\x7b\"a\": 1\x7d" ∧
      parseJson (extractOr ("```json\n" ++ "\x7b\"a\": 1\x7d" ++ "\n```"))
        = parseJson "\x7b\"a\": 1\x7d") ∧
    (extractBraces "plain prose" = none ∧
      (parseJson "plain prose" = none →
        enrichAnalysis "plain prose" = fallbackAnalysis)) :=
  ⟨C3_extraction.1 "```json\n" "\x7b\"a\": 1\x7d" "\n```"
      (by unfold braceFree; decide) (by unfold braceFree; decide)
      (by decide) (by decide),
   C3_extraction.2 "plain prose" (by unfold braceFree; decide)⟩

/-- C2 counterexample: the model response consisting of the empty JSON
object parses successfully, so the router keeps it as `intentData` even
though it has no `intent`/`params` keys — the help default is NOT used. -/
theorem C2_counterexample :
    parseJson (extractOr "\x7b\x7d") = some (Json.obj []) ∧
    (intentDataOf "\x7b\x7d").getField "intent" = none ∧
    intentDataOf "\x7b\x7d" ≠ helpDefault := by
  refine ⟨rfl, rfl, ?_⟩
  intro h
  have h' : Json.obj [] = helpDefault := h
  simp [helpDefault] at h'

/-- C2 amended: a parse exception yields the strict help default with
all-zero params; a successful parse is used verbatim (however shaped); any
`intentData` whose `intent` key is missing — like the help default itself —
runs none of the five query branches. -/
theorem C2_intent_fallback (resp : String) :
    (parseJson (extractOr resp) = none → intentDataOf resp = helpDefault) ∧
    (∀ j, parseJson (extractOr resp) = some j → intentDataOf resp = j) ∧
    (∀ j, j.getField "intent" = none → dispatch j = QueryKind.noQuery) ∧
    dispatch helpDefault = QueryKind.noQuery := by
  refine ⟨?_, ?_, ?_, rfl⟩
  · intro h
    unfold intentDataOf
    rw [h]
  · intro j h
    unfold intentDataOf
    rw [h]
  · intro j h
    unfold dispatch
    rw [h]

/-- Witness for C2 amended: a non-JSON response falls back to the help
default; the empty-object response is kept as-is and runs no query. -/
theorem C2_intent_fallback_witness :
    intentDataOf "nonsense" = helpDefault ∧
    intentDataOf "\x7b\x7d" = Json.obj [] ∧
    dispatch (Json.obj []) = QueryKind.noQuery :=
  ⟨(C2_intent_fallback "nonsense").1 rfl,
   (C2_intent_fallback "\x7b\x7d").2.1 (Json.obj []) rfl,
   (C2_intent_fallback "\x7b\x7d").2.2.1 (Json.obj []) rfl⟩

/-- C8: when extraction of the enrichment output fails (the parse throws),
the step returns exactly the fixed fallback record, and the submission is
still scored (gravity 0) and persisted with those fallback fields — the
pipeline never blocks on unparsable model output. -/
theorem C8_enrichment_fallback (resp : String)
    (h : parseJson (extractOr resp) = none)
    (id content source : String) (now created : ℤ) :
    enrichAnalysis resp = fallbackAnalysis ∧
    fallbackAnalysis.getField "sentiment" = some (.num 0) ∧
    fallbackAnalysis.getField "category" = some (.str "Other") ∧
    fallbackAnalysis.getField "explanation" = some (.str "Failed to analyze") ∧
    (mkFeedbackRow id content source 0 "Other" "Failed to analyze" now created).sentiment = 0 ∧
    (mkFeedbackRow id content source 0 "Other" "Failed to analyze" now created).category = "Other" ∧
    (mkFeedbackRow id content source 0 "Other" "Failed to analyze" now created).explanation
      = "Failed to analyze" ∧
    (mkFeedbackRow id content source 0 "Other" "Failed to analyze" now created).gravity_score = 0 := by
  refine ⟨?_, rfl, rfl, rfl, rfl, rfl, rfl, ?_⟩
  · unfold enrichAnalysis
    rw [h]
  · show gravityScore 0 "Other" (ageHours now created) = 0
    unfold gravityScore gravityBase round2 jsRound
    norm_num

/-- Witness for C8 on the unparsable response "sorry, no JSON". -/
theorem C8_enrichment_fallback_witness :
    enrichAnalysis "sorry, no JSON" = fallbackAnalysis ∧
    fallbackAnalysis.getField "sentiment" = some (.num 0) ∧
    fallbackAnalysis.getField "category" = some (.str "Other") ∧
    fallbackAnalysis.getField "explanation" = some (.str "Failed to analyze") ∧
    (mkFeedbackRow "id1" "some text" "api" 0 "Other" "Failed to analyze" 0 0).sentiment = 0 ∧
    (mkFeedbackRow "id1" "some text" "api" 0 "Other" "Failed to analyze" 0 0).category = "Other" ∧
    (mkFeedbackRow "id1" "some text" "api" 0 "Other" "Failed to analyze" 0 0).explanation
      = "Failed to analyze" ∧
    (mkFeedbackRow "id1" "some text" "api" 0 "Other" "Failed to analyze" 0 0).gravity_score = 0 :=
  C8_enrichment_fallback "sorry, no JSON" rfl "id1" "some text" "api" 0 0

/-- C6: with the default bound the helper makes at most 3 attempts, retries
on any failure (whatever the error) with linearly increasing delays of
1000 ms then 2000 ms, and when all attempts fail it propagates the final
failure rather than returning a default. -/
theorem C6_retry {E A : Type} (call : ℕ → Except E A) :
    (runAIWithRetry call 2).2.1 ≤ 3 ∧
    (∀ a, call 0 = .ok a → runAIWithRetry call 2 = (.ok a, 1, [])) ∧
    (∀ e0 a, call 0 = .error e0 → call 1 = .ok a →
      runAIWithRetry call 2 = (.ok a, 2, [1000])) ∧
    (∀ e0 e1 a, call 0 = .error e0 → call 1 = .error e1 → call 2 = .ok a →
      runAIWithRetry call 2 = (.ok a, 3, [1000, 2000])) ∧
    (∀ e0 e1 e2, call 0 = .error e0 → call 1 = .error e1 → call 2 = .error e2 →
      runAIWithRetry call 2 = (.error e2, 3, [1000, 2000])) := by
  refine ⟨?_, ?_, ?_, ?_, ?_⟩
  · unfold runAIWithRetry
    rcases h0 : call 0 with e0 | a0
    · rcases h1 : call 1 with e1 | a1
      · rcases h2 : call 2 with e2 | a2 <;> simp [retryAux, h0, h1, h2]
      · simp [retryAux, h0, h1]
    · simp [retryAux, h0]
  · intro a h0
    unfold runAIWithRetry retryAux
    rw [h0]
  · intro e0 a h0 h1
    unfold runAIWithRetry retryAux
    rw [h0]
    simp [retryAux, h1]
  · intro e0 e1 a h0 h1 h2
    unfold runAIWithRetry retryAux
    rw [h0]
    simp [retryAux, h1, h2]
  · intro e0 e1 e2 h0 h1 h2
    unfold runAIWithRetry retryAux
    rw [h0]
    simp [retryAux, h1, h2]

/-- Witness for C6 with a call that fails every attempt with error `i`. -/
theorem C6_retry_witness :
    runAIWithRetry (fun i => (Except.error i : Except ℕ Unit)) 2
      = (.error 2, 3, [1000, 2000]) :=
  (C6_retry (fun i => (Except.error i : Except ℕ Unit))).2.2.2.2 0 1 2 rfl rfl rfl

lemma bugsRecentCmp_trans (a b c : FeedbackRow)
    (hab : bugsRecentCmp a b) (hbc : bugsRecentCmp b c) : bugsRecentCmp a c := by
  simp only [bugsRecentCmp, decide_eq_true_eq] at *
  rcases hab with h1 | ⟨h1, h1'⟩ <;> rcases hbc with h2 | ⟨h2, h2'⟩
  · exact Or.inl (h2.trans h1)
  · exact Or.inl (h2 ▸ h1)
  · exact Or.inl (h1 ▸ h2)
  · exact Or.inr ⟨h1.trans h2, h2'.trans h1'⟩

lemma bugsRecentCmp_total (a b : FeedbackRow) :
    bugsRecentCmp a b || bugsRecentCmp b a := by
  simp only [bugsRecentCmp, Bool.or_eq_true, decide_eq_true_eq]
  rcases lt_trichotomy a.gravity_score b.gravity_score with h | h | h
  · exact Or.inr (Or.inl h)
  · rcases le_total b.created_at a.created_at with h' | h'
    · exact Or.inl (Or.inr ⟨h, h'⟩)
    · exact Or.inr (Or.inr ⟨h.symm, h'⟩)
  · exact Or.inl (Or.inl h)

/-- C7: `bugs_recent` returns only rows with category Bug and
`created_at` at or after `now − hours·3600000` ms (hours defaulting to 24
when 0/unspecified), drawn from the store, ordered by gravity score
descending then created_at descending, with at most 10 results. -/
theorem C7_bugs_recent (db : List FeedbackRow) (now : ℤ) (hours : ℚ) :
    effHours 0 = 24 ∧
    (∀ r ∈ bugsRecentQuery db now hours,
      r.category = "Bug" ∧
      (now : ℚ) - effHours hours * 3600000 ≤ (r.created_at : ℚ) ∧
      r ∈ db) ∧
    (bugsRecentQuery db now hours).Pairwise
      (fun a b => bugsRecentCmp a b = true) ∧
    (bugsRecentQuery db now hours).length ≤ 10 := by
  refine ⟨by norm_num [effHours], ?_, ?_, ?_⟩
  · intro r hr
    have hr1 : r ∈ (db.filter fun r =>
        decide (r.category = "Bug") &&
        decide ((now : ℚ) - effHours hours * 3600000 ≤ (r.created_at : ℚ))).mergeSort
          bugsRecentCmp := List.mem_of_mem_take hr
    have hr2 := (List.mergeSort_perm _ bugsRecentCmp).mem_iff.mp hr1
    obtain ⟨hmem, hcond⟩ := List.mem_filter.mp hr2
    rw [Bool.and_eq_true, decide_eq_true_eq, decide_eq_true_eq] at hcond
    exact ⟨hcond.1, hcond.2, hmem⟩
  · have hs := @List.sorted_mergeSort FeedbackRow bugsRecentCmp
      bugsRecentCmp_trans bugsRecentCmp_total
      (db.filter fun r =>
        decide (r.category = "Bug") &&
        decide ((now : ℚ) - effHours hours * 3600000 ≤ (r.created_at : ℚ)))
    exact List.Pairwise.sublist (List.take_sublist _ _) hs
  · exact List.length_take_le _ _

lemma bugsRecentQuery_sample :
    bugsRecentQuery [sampleRow] 0 24 = [sampleRow] := by
  have hf : (decide (sampleRow.category = "Bug") &&
      decide (((0 : ℤ) : ℚ) - effHours 24 * 3600000 ≤ ((sampleRow.created_at : ℤ) : ℚ)))
      = true := by
    rw [Bool.and_eq_true, decide_eq_true_eq, decide_eq_true_eq]
    refine ⟨rfl, ?_⟩
    norm_num [sampleRow, effHours]
  unfold bugsRecentQuery
  simp only [List.filter_cons, List.filter_nil]
  rw [if_pos hf]
  simp

/-- Witness for C7 on a one-row store. -/
theorem C7_bugs_recent_witness :
    sampleRow.category = "Bug" ∧
    ((0 : ℤ) : ℚ) - effHours 24 * 3600000 ≤ ((sampleRow.created_at : ℤ) : ℚ) ∧
    sampleRow ∈ [sampleRow] :=
  (C7_bugs_recent [sampleRow] 0 24).2.1 sampleRow
    (by rw [bugsRecentQuery_sample]; exact List.mem_singleton_self sampleRow)

/-- C9: a missing/unparsable body or one without a truthy (non-empty) text
field gets a canned sample from the fixed list with source
"random-generator"; a non-empty text is used as submitted, with the supplied
source defaulting to "api" when absent/empty; and in every case the endpoint
responds with the immediate acknowledgment `{ok: true, started: true}`. -/
theorem C9_ingest (body : Option Json) (pick : ℕ) (hp : pick < 12) :
    ((body = none ∨ ∃ b, body = some b ∧ textOf b = none) →
      (handleIngest body pick).content = .str (MESSY_SAMPLES.getD pick "") ∧
      MESSY_SAMPLES.getD pick "" ∈ MESSY_SAMPLES ∧
      (handleIngest body pick).source = .str "random-generator") ∧
    (∀ b, body = some b → ∀ t, textOf b = some t →
      (handleIngest body pick).content = t ∧
      (handleIngest body pick).source = sourceOf b) ∧
    (∀ b, sourceOf b = .str "api" ∨
      ∃ sv, propAccess b "source" = .ok (some sv) ∧ sv.truthy ∧ sourceOf b = sv) ∧
    (handleIngest body pick).response = ingestAck := by
  have hmem : MESSY_SAMPLES.getD pick "" ∈ MESSY_SAMPLES := by
    have hlen : pick < MESSY_SAMPLES.length := hp
    rw [List.getD_eq_getElem?_getD, List.getElem?_eq_getElem hlen]
    exact List.getElem_mem hlen
  refine ⟨?_, ?_, ?_, ?_⟩
  · rintro (h | ⟨b, hb, ht⟩)
    · subst h
      exact ⟨rfl, hmem, rfl⟩
    · subst hb
      exact ⟨by simp [handleIngest, ht], hmem, by simp [handleIngest, ht]⟩
  · intro b hb t ht
    subst hb
    exact ⟨by simp [handleIngest, ht], by simp [handleIngest, ht]⟩
  · intro b
    rcases hpa : propAccess b "source" with e | o
    · exact Or.inl (by simp [sourceOf, hpa])
    · rcases o with _ | sv
      · exact Or.inl (by simp [sourceOf, hpa])
      · by_cases hts : sv.truthy
        · exact Or.inr ⟨sv, rfl, hts, by simp [sourceOf, hpa, hts]⟩
        · exact Or.inl (by simp [sourceOf, hpa, hts])
  · rcases body with _ | b
    · rfl
    · rcases ht : textOf b with _ | t <;> simp only [handleIngest, ht]

/-- Witness for C9: an empty-object body draws the first canned sample; a
body with text "hello" and no source uses it with source "api". -/
theorem C9_ingest_witness :
    ((handleIngest (some (Json.obj [])) 0).content
        = .str "login completely broken fix it!!!" ∧
      (handleIngest (some (Json.obj [])) 0).source = .str "random-generator") ∧
    ((handleIngest (some (Json.obj [("text", Json.str "hello")])) 0).content
        = Json.str "hello" ∧
      (handleIngest (some (Json.obj [("text", Json.str "hello")])) 0).source
        = sourceOf (Json.obj [("text", Json.str "hello")]) ∧
      sourceOf (Json.obj [("text", Json.str "hello")]) = .str "api") ∧
    (handleIngest none 3).response = ingestAck := by
  have h1 := (C9_ingest (some (Json.obj [])) 0 (by norm_num)).1
    (Or.inr ⟨Json.obj [], rfl, rfl⟩)
  have h2 := (C9_ingest (some (Json.obj [("text", Json.str "hello")])) 0
    (by norm_num)).2.1 (Json.obj [("text", Json.str "hello")]) rfl
    (Json.str "hello") rfl
  have h3 := (C9_ingest none 3 (by norm_num)).2.2.2
  exact ⟨⟨h1.1, h1.2.2⟩, ⟨h2.1, h2.2, rfl⟩, h3⟩

end FeedbackCopilot
